import Mathlib

/-!
Verification of the HyperCLOVA client library core (hyperclova package):
the SSE frame parser and stream decoder (`streaming.py`), the request
token-field selection (`completions.py`, `models.py`), and the utility
layer (`utils.py`).  Python strings are embedded as `List Char`;
fallible Python code returns `Except`; runtime behaviour such as the
retry loop and the streaming generator is modelled as explicit traces
and state machines.
-/

namespace HyperClova

/-- Python strings are modelled as lists of characters. -/
abbrev Str := List Char

/-- The whitespace characters recognised by Python's `str.strip` /
`str.lstrip` (ASCII subset; the source only ever strips ASCII). -/
def isPySpace (c : Char) : Bool :=
  c = ' ' || c = '\t' || c = '\n' || c = '\r' || c = '\x0b' || c = '\x0c'

/-- Python `value.lstrip()`. -/
def pyLStrip (s : Str) : Str := s.dropWhile isPySpace

/-- Python `not s.strip()`: true when `s` is empty or whitespace-only. -/
def pyBlank (s : Str) : Bool := s.all isPySpace

/-- Python `s.split(sep, 1)` for a one-character separator, returning
`none` when the separator does not occur (the caller guards with
`sep in s`). -/
def splitFirst (sep : Char) : Str → Option (Str × Str)
  | [] => none
  | c :: t =>
    if c = sep then some ([], t)
    else (splitFirst sep t).map (fun p => (c :: p.1, p.2))

/-- Python `s.split(sep)` for a one-character separator. -/
def splitOnChar (sep : Char) : Str → List Str
  | [] => [[]]
  | c :: t =>
    let r := splitOnChar sep t
    if c = sep then [] :: r
    else
      match r with
      | [] => [[c]]
      | l :: ls => (c :: l) :: ls

/-- Digits of a decimal literal folded to a natural number. -/
def digitsToNat (ds : Str) : Nat :=
  ds.foldl (fun n c => n * 10 + (c.toNat - 48)) 0

/-- Python `int(value)` on a string: optional surrounding whitespace,
optional sign, then decimal digits; `none` models `ValueError`
(subset: underscore separators are not modelled). -/
def pyParseInt (s : Str) : Option Int :=
  let t := ((s.dropWhile isPySpace).reverse.dropWhile isPySpace).reverse
  match t with
  | '-' :: ds =>
    if ds ≠ [] ∧ ds.all Char.isDigit then some (-(digitsToNat ds : Int)) else none
  | '+' :: ds =>
    if ds ≠ [] ∧ ds.all Char.isDigit then some (digitsToNat ds : Int) else none
  | ds =>
    if ds ≠ [] ∧ ds.all Char.isDigit then some (digitsToNat ds : Int) else none

/-- `streaming.SSEEvent`: one parsed Server-Sent-Events frame. -/
structure SSEEvent where
  id : Option Str := none
  event : Option Str := none
  data : Option Str := none
  retry : Option Int := none
deriving DecidableEq, Repr

/-- Python truthiness of the optional `data` string: `None` and the
empty string are falsy. -/
def dataTruthy : Option Str → Bool
  | some (_ :: _) => true
  | _ => false

/-- One iteration of the line loop in `SSEParser._parse_event`: skip
empty lines and lines without a colon, split the line at the first
colon, left-strip the value, and record it under a recognised field
name (an unparseable `retry` value is ignored). -/
def applyLine (ev : SSEEvent) (line : Str) : SSEEvent :=
  if line = [] then ev
  else
    match splitFirst ':' line with
    | none => ev
    | some fv =>
      let v := pyLStrip fv.2
      if fv.1 = "id".toList then { ev with id := some v }
      else if fv.1 = "event".toList then { ev with event := some v }
      else if fv.1 = "data".toList then { ev with data := some v }
      else if fv.1 = "retry".toList then
        match pyParseInt v with
        | some n => { ev with retry := some n }
        | none => ev
      else ev

/-- `SSEParser._parse_event`: a blank event block yields nothing; the
block is otherwise parsed line by line and the frame is returned only
when its `data` field is truthy. -/
def parseEvent (s : Str) : Option SSEEvent :=
  if pyBlank s then none
  else
    let ev := (splitOnChar '\n' s).foldl applyLine {}
    if dataTruthy ev.data then some ev else none

/-- Python `buffer.split(doubleNewline, 1)`: split the buffer at the
first occurrence of a blank line (`"\n\n"`), `none` when there is no
occurrence (models the `while "\n\n" in self.buffer` guard). -/
def splitBlankLine : Str → Option (Str × Str)
  | [] => none
  | c :: t =>
    if c = '\n' ∧ t.head? = some '\n' then some ([], t.tail)
    else (splitBlankLine t).map (fun p => (c :: p.1, p.2))

/-- Prepend an optional element. -/
def consOpt : Option α → List α → List α
  | some a, l => a :: l
  | none, l => l

/-- Fuelled version of the drain loop of `SSEParser.parse` (each split
strictly shortens the buffer, so fuel `buf.length` always suffices). -/
def drainF : Nat → Str → List SSEEvent × Str
  | 0, buf => ([], buf)
  | Nat.succ fuel, buf =>
    match splitBlankLine buf with
    | none => ([], buf)
    | some p =>
      let r := drainF fuel p.2
      (consOpt (parseEvent p.1) r.1, r.2)

/-- The drain loop of `SSEParser.parse`: repeatedly split off the part
of the buffer before the first blank line, parse it as one event block
with `_parse_event`, and keep the accepted frames; stops when no blank
line remains, returning the frames with the leftover buffer. -/
def drain (buf : Str) : List SSEEvent × Str := drainF buf.length buf

/-- `SSEParser.parse`: append the chunk to the buffer, then drain. -/
def parseSSE (buf chunk : Str) : List SSEEvent × Str := drain (buf ++ chunk)

/-- Feed a sequence of chunks to one parser instance, one `parse` call
per chunk, concatenating the yielded frames. -/
def feedAll (buf : Str) : List Str → List SSEEvent × Str
  | [] => ([], buf)
  | c :: cs =>
    let r := parseSSE buf c
    let s := feedAll r.2 cs
    (r.1 ++ s.1, s.2)

/-- The value a single line would store into the event's `data` field:
the line must contain a colon and its field name (before the first
colon) must be exactly `data`; the stored value is left-stripped. -/
def dataLineValue (line : Str) : Option Str :=
  if line = [] then none
  else
    match splitFirst ':' line with
    | none => none
    | some fv => if fv.1 = "data".toList then some (pyLStrip fv.2) else none

/-- An event block textually carries a `data` field. -/
def hasDataField (s : Str) : Bool :=
  (splitOnChar '\n' s).any (fun l => (dataLineValue l).isSome)

/-- The value of the last `data` line of a block (later lines overwrite
earlier ones in the parse loop). -/
def lastDataValue (lines : List Str) : Option Str :=
  lines.foldr (fun l acc => acc.or (dataLineValue l)) none

/-- The left-brace character (written by code point to keep braces out
of string literals). -/
def lbraceC : Char := Char.ofNat 123

/-- The right-brace character. -/
def rbraceC : Char := Char.ofNat 125

/-- The double-quote character. -/
def quoteC : Char := Char.ofNat 34

/-- The backslash character. -/
def backslashC : Char := Char.ofNat 92

/-- JSON values as produced by `json.loads` (subset: numbers are
integers; the claims only exercise integer payloads). -/
inductive JVal where
  | jnull : JVal
  | jbool : Bool → JVal
  | jnum : Int → JVal
  | jstr : Str → JVal
  | jarr : List JVal → JVal
  | jobj : List (Str × JVal) → JVal
deriving Repr

/-- JSON insignificant whitespace skipping. -/
def jskip (s : Str) : Str :=
  s.dropWhile (fun c => c = ' ' || c = '\t' || c = '\n' || c = '\r')

/-- JSON string escape sequences (subset: no `\u` escapes). -/
def unescapeChar (c : Char) : Option Char :=
  if c = quoteC then some quoteC
  else if c = backslashC then some backslashC
  else if c = '/' then some '/'
  else if c = 'n' then some '\n'
  else if c = 't' then some '\t'
  else if c = 'r' then some '\r'
  else if c = 'b' then some '\x08'
  else if c = 'f' then some '\x0c'
  else none

/-- A nonempty run of decimal digits with the remaining input. -/
def parseDigits (s : Str) : Option (Nat × Str) :=
  let ds := s.takeWhile Char.isDigit
  if ds = [] then none else some (digitsToNat ds, s.dropWhile Char.isDigit)

mutual

/-- Modelled from `json.loads` (recursive-descent subset: objects,
arrays, strings with simple escapes, integers, booleans, null). -/
def parseJV : Nat → Str → Option (JVal × Str)
  | 0, _ => none
  | Nat.succ fuel, s =>
    match jskip s with
    | [] => none
    | c :: t =>
      if c = quoteC then (parseJStrBody fuel t).map (fun p => (JVal.jstr p.1, p.2))
      else if c = lbraceC then (parseJObjItems fuel true t).map (fun p => (JVal.jobj p.1, p.2))
      else if c = '[' then (parseJArrItems fuel true t).map (fun p => (JVal.jarr p.1, p.2))
      else if c = 't' then
        match t with
        | 'r' :: 'u' :: 'e' :: r => some (JVal.jbool true, r)
        | _ => none
      else if c = 'f' then
        match t with
        | 'a' :: 'l' :: 's' :: 'e' :: r => some (JVal.jbool false, r)
        | _ => none
      else if c = 'n' then
        match t with
        | 'u' :: 'l' :: 'l' :: r => some (JVal.jnull, r)
        | _ => none
      else if c = '-' then
        (parseDigits t).map (fun p => (JVal.jnum (-(p.1 : Int)), p.2))
      else if c.isDigit then
        (parseDigits (c :: t)).map (fun p => (JVal.jnum (p.1 : Int), p.2))
      else none

/-- Body of a JSON string after the opening quote. -/
def parseJStrBody : Nat → Str → Option (Str × Str)
  | 0, _ => none
  | Nat.succ fuel, s =>
    match s with
    | [] => none
    | c :: t =>
      if c = quoteC then some ([], t)
      else if c = backslashC then
        match t with
        | [] => none
        | e :: t2 =>
          match unescapeChar e with
          | none => none
          | some ch => (parseJStrBody fuel t2).map (fun p => (ch :: p.1, p.2))
      else (parseJStrBody fuel t).map (fun p => (c :: p.1, p.2))

/-- Items of a JSON array after the opening bracket. -/
def parseJArrItems : Nat → Bool → Str → Option (List JVal × Str)
  | 0, _, _ => none
  | Nat.succ fuel, first, s =>
    let s1 := jskip s
    if first ∧ s1.head? = some ']' then some ([], s1.tail)
    else
      match parseJV fuel s1 with
      | none => none
      | some vr =>
        match jskip vr.2 with
        | ']' :: t2 => some ([vr.1], t2)
        | ',' :: t2 => (parseJArrItems fuel false t2).map (fun p => (vr.1 :: p.1, p.2))
        | _ => none

/-- Members of a JSON object after the opening brace. -/
def parseJObjItems : Nat → Bool → Str → Option (List (Str × JVal) × Str)
  | 0, _, _ => none
  | Nat.succ fuel, first, s =>
    let s1 := jskip s
    if first ∧ s1.head? = some rbraceC then some ([], s1.tail)
    else
      match s1 with
      | [] => none
      | c :: t =>
        if c = quoteC then
          match parseJStrBody fuel t with
          | none => none
          | some kr =>
            match jskip kr.2 with
            | ':' :: t2 =>
              match parseJV fuel t2 with
              | none => none
              | some vr =>
                match jskip vr.2 with
                | [] => none
                | e :: t3 =>
                  if e = rbraceC then some ([(kr.1, vr.1)], t3)
                  else if e = ',' then
                    (parseJObjItems fuel false t3).map (fun p => ((kr.1, vr.1) :: p.1, p.2))
                  else none
            | _ => none
        else none

end

/-- Modelled from `json.loads`: parse a complete JSON document;
`none` models `json.JSONDecodeError`. -/
def jloads (s : Str) : Option JVal :=
  match parseJV (2 * s.length + 2) s with
  | some vr => if jskip vr.2 = [] then some vr.1 else none
  | none => none

/-- Lookup in a JSON object (later duplicate keys overwrite earlier
ones, as in Python's dict built by `json.loads`). -/
def lookupLast (kvs : List (Str × JVal)) (k : Str) : Option JVal :=
  kvs.foldl (fun acc p => if p.1 = k then some p.2 else acc) none

/-- Python `str(...)` of a decoded JSON value, as used in f-string
interpolation (subset: container reprs are not spelled out; the claims
only interpolate strings). -/
def pyStrOfJVal : JVal → Str
  | JVal.jstr s => s
  | JVal.jnum n =>
    if n < 0 then '-' :: Nat.toDigits 10 n.natAbs else Nat.toDigits 10 n.natAbs
  | JVal.jbool true => "True".toList
  | JVal.jbool false => "False".toList
  | JVal.jnull => "None".toList
  | JVal.jarr _ => "<list>".toList
  | JVal.jobj _ => "<dict>".toList

/-- The Python exceptions that can cross the code under study, each
carrying its message. -/
inductive PyExc where
  | streamingError (msg : Str)
  | valueError (msg : Str)
  | validationError (msg : Str)
  | attributeError (msg : Str)
  | typeError (msg : Str)
  | keyError (msg : Str)
deriving DecidableEq, Repr

/-- Python `str(e)` on an exception: its message. -/
def pyExcMsg : PyExc → Str
  | PyExc.streamingError m => m
  | PyExc.valueError m => m
  | PyExc.validationError m => m
  | PyExc.attributeError m => m
  | PyExc.typeError m => m
  | PyExc.keyError m => m

/-- Python `j.get(k, dflt)`: dictionary lookup with default; on a
non-dict value, attribute access fails with `AttributeError`. -/
def jDictGet (j : JVal) (k : Str) (dflt : JVal) : Except PyExc JVal :=
  match j with
  | JVal.jobj kvs => Except.ok ((lookupLast kvs k).getD dflt)
  | _ => Except.error (PyExc.attributeError ("object has no attribute get".toList))

/-- `data.get("status", dict()).get("message", "Unknown error")` from
`StreamingResponse._process_event`, formatted for the f-string. -/
def statusMessageOf (j : JVal) : Except PyExc Str :=
  match jDictGet j ("status".toList) (JVal.jobj []) with
  | Except.error e => Except.error e
  | Except.ok st =>
    match jDictGet st ("message".toList) (JVal.jstr ("Unknown error".toList)) with
    | Except.error e => Except.error e
    | Except.ok m => Except.ok (pyStrOfJVal m)

/-- `types.Role`. -/
inductive Role where
  | system
  | user
  | assistant
  | tool
deriving DecidableEq, Repr

/-- Decode a role literal. -/
def roleOfStr (s : Str) : Option Role :=
  if s = "system".toList then some Role.system
  else if s = "user".toList then some Role.user
  else if s = "assistant".toList then some Role.assistant
  else if s = "tool".toList then some Role.tool
  else none

/-- `types.FinishReason`. -/
inductive FinishReason where
  | length
  | stop
  | toolCalls
deriving DecidableEq, Repr

/-- Decode a finish-reason literal. -/
def finishReasonOfStr (s : Str) : Option FinishReason :=
  if s = "length".toList then some FinishReason.length
  else if s = "stop".toList then some FinishReason.stop
  else if s = "tool_calls".toList then some FinishReason.toolCalls
  else none

/-- `models.ChatCompletionMessage` as validated from a streamed JSON
payload (subset: `toolCalls` is kept as the raw JSON value). -/
structure ChunkMessage where
  role : Role
  content : Str
  thinkingContent : Option Str
  toolCalls : Option JVal
deriving Repr

/-- `models.ChatCompletionChunk` (subset: `usage` is kept as the raw
JSON value). -/
structure Chunk where
  message : ChunkMessage
  finishReason : Option FinishReason
  created : Int
  seed : Int
  usage : Option JVal
deriving Repr

/-- Optional string field with a camelCase alias and a snake_case name
(pydantic `populate_by_name`); `null` and a missing key both give
`none`, a value of any other shape is a validation error. -/
def optStrField (kvs : List (Str × JVal)) (k1 k2 : Str) : Except PyExc (Option Str) :=
  match (lookupLast kvs k1).or (lookupLast kvs k2) with
  | none => Except.ok none
  | some JVal.jnull => Except.ok none
  | some (JVal.jstr t) => Except.ok (some t)
  | some _ => Except.error (PyExc.validationError ("str type expected".toList))

/-- Modelled from pydantic validation of `ChatCompletionMessage`. -/
def chunkMessageOfJVal (j : JVal) : Except PyExc ChunkMessage :=
  match j with
  | JVal.jobj kvs =>
    match lookupLast kvs ("role".toList) with
    | some (JVal.jstr r) =>
      match roleOfStr r with
      | some role =>
        match lookupLast kvs ("content".toList) with
        | some (JVal.jstr ctext) =>
          match optStrField kvs ("thinkingContent".toList) ("thinking_content".toList) with
          | Except.error e => Except.error e
          | Except.ok tc =>
            Except.ok
              { role := role, content := ctext, thinkingContent := tc,
                toolCalls :=
                  (lookupLast kvs ("toolCalls".toList)).or
                    (lookupLast kvs ("tool_calls".toList)) }
        | _ => Except.error (PyExc.validationError ("content field required".toList))
      | none => Except.error (PyExc.validationError ("role literal invalid".toList))
    | _ => Except.error (PyExc.validationError ("role field required".toList))
  | _ => Except.error (PyExc.validationError ("message must be a dict".toList))

/-- Modelled from pydantic validation of `ChatCompletionChunk` applied
as `ChatCompletionChunk(**data)`: a non-dict payload is a `TypeError`
from the `**` unpacking, a dict is field-validated. -/
def chunkOfJVal (j : JVal) : Except PyExc Chunk :=
  match j with
  | JVal.jobj kvs =>
    match lookupLast kvs ("message".toList) with
    | none => Except.error (PyExc.validationError ("message field required".toList))
    | some jm =>
      match chunkMessageOfJVal jm with
      | Except.error e => Except.error e
      | Except.ok msg =>
        match lookupLast kvs ("created".toList) with
        | some (JVal.jnum created) =>
          match lookupLast kvs ("seed".toList) with
          | some (JVal.jnum seed) =>
            match (lookupLast kvs ("finishReason".toList)).or
                (lookupLast kvs ("finish_reason".toList)) with
            | none =>
              Except.ok
                { message := msg, finishReason := none, created := created,
                  seed := seed, usage := lookupLast kvs ("usage".toList) }
            | some JVal.jnull =>
              Except.ok
                { message := msg, finishReason := none, created := created,
                  seed := seed, usage := lookupLast kvs ("usage".toList) }
            | some (JVal.jstr fs) =>
              match finishReasonOfStr fs with
              | some fr =>
                Except.ok
                  { message := msg, finishReason := some fr, created := created,
                    seed := seed, usage := lookupLast kvs ("usage".toList) }
              | none =>
                Except.error (PyExc.validationError ("finishReason literal invalid".toList))
            | some _ =>
              Except.error (PyExc.validationError ("finishReason literal invalid".toList))
          | _ => Except.error (PyExc.validationError ("seed field required".toList))
        | _ => Except.error (PyExc.validationError ("created field required".toList))
  | _ => Except.error (PyExc.typeError ("argument after ** must be a mapping".toList))

/-- `StreamingResponse._process_event`: skip falsy data, decode the
JSON payload (`JSONDecodeError` becomes a `StreamingError`), raise on
an `error` event with the embedded status message, build a chunk for
`result` and `token` events, and skip every other event name. -/
def processEvent (ev : SSEEvent) : Except PyExc (Option Chunk) :=
  if dataTruthy ev.data = false then Except.ok none
  else
    match jloads (ev.data.getD []) with
    | none => Except.error (PyExc.streamingError ("Invalid JSON in SSE".toList))
    | some j =>
      if ev.event = some ("error".toList) then
        match statusMessageOf j with
        | Except.error e => Except.error e
        | Except.ok m =>
          Except.error (PyExc.streamingError (("Streaming error: ".toList) ++ m))
      else if ev.event = some ("result".toList) then
        match chunkOfJVal j with
        | Except.error e => Except.error e
        | Except.ok ch => Except.ok (some ch)
      else if ev.event = some ("token".toList) then
        match chunkOfJVal j with
        | Except.error e => Except.error e
        | Except.ok ch => Except.ok (some ch)
      else Except.ok none

/-- The inner event loop of `StreamingResponse.__iter__` over one batch
of parsed frames: chunks yielded before a failure are kept, and the
first failure aborts the rest of the batch. -/
def processEvents : List SSEEvent → List Chunk × Option PyExc
  | [] => ([], none)
  | ev :: evs =>
    match processEvent ev with
    | Except.error e => ([], some e)
    | Except.ok none => processEvents evs
    | Except.ok (some c) =>
      let r := processEvents evs
      (c :: r.1, r.2)

/-- The `except Exception` handler of `StreamingResponse.__iter__`:
any exception is re-raised as `StreamingError` wrapping its message. -/
def wrapStreamErr (e : PyExc) : PyExc :=
  PyExc.streamingError (("Error during streaming: ".toList) ++ pyExcMsg e)

/-- The line loop of `StreamingResponse.__iter__` over the transport's
lines: empty lines are skipped, each other line is fed to the parser
with a trailing blank line, and the resulting frames are decoded in
order; the chunks yielded before the first failure are kept and the
failure terminates the sequence, wrapped as a `StreamingError`. -/
def iterChunks : Str → List Str → List Chunk × Option PyExc
  | _, [] => ([], none)
  | buf, line :: rest =>
    if line = [] then iterChunks buf rest
    else
      let d := drain (buf ++ line ++ [ '\n', '\n' ])
      let p := processEvents d.1
      match p.2 with
      | some e => (p.1, some (wrapStreamErr e))
      | none =>
        let r := iterChunks d.2 rest
        (p.1 ++ r.1, r.2)

/-- Suspended state of the `__iter__` generator body: parser buffer,
remaining transport lines, chunks decoded but not yet yielded, and a
decode failure to raise once those chunks are consumed. -/
structure IterSt where
  buf : Str
  lines : List Str
  pending : List Chunk
  pendingErr : Option PyExc

/-- Run the generator body from explicit components to its next
suspension point (structural recursion on the remaining lines). -/
def runToYieldAux : Str → List Str → List Chunk → Option PyExc →
    (Chunk × IterSt) ⊕ Option PyExc
  | buf, lines, c :: pend, perr => Sum.inl (c, ⟨buf, lines, pend, perr⟩)
  | _, _, [], some e => Sum.inr (some (wrapStreamErr e))
  | _, [], [], none => Sum.inr none
  | buf, line :: rest, [], none =>
    if line = [] then runToYieldAux buf rest [] none
    else
      let d := drain (buf ++ line ++ [ '\n', '\n' ])
      let p := processEvents d.1
      runToYieldAux d.2 rest p.1 p.2

/-- Run the generator body to its next suspension point: the next
yielded chunk, or termination (`none` for normal completion, `some e`
for the wrapped raised exception). -/
def runToYield (st : IterSt) : (Chunk × IterSt) ⊕ Option PyExc :=
  runToYieldAux st.buf st.lines st.pending st.pendingErr

/-- Lifecycle of the `__iter__` generator object. -/
inductive GenStatus where
  | notStarted (st : IterSt)
  | suspended (st : IterSt)
  | finished

/-- A generator together with the number of `response.close()` calls
its `finally` block has performed. -/
structure Gen where
  status : GenStatus
  closes : Nat

/-- What a `next()` call returns. -/
inductive NextRes where
  | yielded (c : Chunk)
  | stopped
  | raised (e : PyExc)

/-- Operations a consumer can perform on the generator: `next()` calls
(a `for` loop) and `close()` (loop exit / garbage collection). -/
inductive GenOp where
  | next
  | close
deriving DecidableEq, Repr

/-- Python `next()` on the generator: run the body to the next yield;
on completion or on a raised exception the `finally` block closes the
transport response exactly then; `next()` on a finished generator just
raises `StopIteration` without re-entering the body. -/
def genNext (g : Gen) : Gen × NextRes :=
  match g.status with
  | GenStatus.finished => (g, NextRes.stopped)
  | GenStatus.notStarted st =>
    match runToYield st with
    | Sum.inl cs => ({ status := GenStatus.suspended cs.2, closes := g.closes }, NextRes.yielded cs.1)
    | Sum.inr none => ({ status := GenStatus.finished, closes := g.closes + 1 }, NextRes.stopped)
    | Sum.inr (some e) => ({ status := GenStatus.finished, closes := g.closes + 1 }, NextRes.raised e)
  | GenStatus.suspended st =>
    match runToYield st with
    | Sum.inl cs => ({ status := GenStatus.suspended cs.2, closes := g.closes }, NextRes.yielded cs.1)
    | Sum.inr none => ({ status := GenStatus.finished, closes := g.closes + 1 }, NextRes.stopped)
    | Sum.inr (some e) => ({ status := GenStatus.finished, closes := g.closes + 1 }, NextRes.raised e)

/-- Python `generator.close()`: throws `GeneratorExit` at the paused
yield, which is not an `Exception` subclass, so only the `finally`
block runs and closes the transport; closing a never-started generator
marks it finished without entering the body (no close), and closing a
finished generator is a no-op. -/
def genClose (g : Gen) : Gen :=
  match g.status with
  | GenStatus.notStarted _ => { status := GenStatus.finished, closes := g.closes }
  | GenStatus.suspended _ => { status := GenStatus.finished, closes := g.closes + 1 }
  | GenStatus.finished => g

/-- Run a consumer's operation sequence against the generator. -/
def runOps (g : Gen) : List GenOp → Gen
  | [] => g
  | op :: ops =>
    match op with
    | GenOp.next => runOps (genNext g).1 ops
    | GenOp.close => runOps (genClose g) ops

/-- Trace of `utils.retry_with_backoff`: the outcome (`Except.error
none` models the `raise None` reached when the loop body never ran),
the number of calls to `func`, and the sequence of sleeps performed. -/
structure RetryTrace (ε α : Type) where
  result : Except (Option ε) α
  calls : Nat
  sleeps : List ℚ
deriving Repr

/-- Python `min` on rationals, written so that the kernel can
evaluate it. -/
def pyMin (a b : ℚ) : ℚ := if a ≤ b then a else b

/-- The attempt loop of `utils.retry_with_backoff`, with the outcome of
attempt `i` given by `ops i` and `remaining` attempts left in
`range(max_retries)`: return on the first success; on failure sleep
`delay` and double it (capped at `maxDelay`) while attempts remain,
else remember the exception; after the loop re-raise the last
exception (`Except.error none` models the `raise None` reached when
the loop body never ran). -/
def retryAux (ops : Nat → Except ε α) (backoff maxDelay : ℚ) :
    Nat → Nat → ℚ → RetryTrace ε α
  | 0, _, _ => ⟨Except.error none, 0, []⟩
  | Nat.succ rem, attempt, delay =>
    match ops attempt with
    | Except.ok a => ⟨Except.ok a, 1, []⟩
    | Except.error e =>
      if 0 < rem then
        let r := retryAux ops backoff maxDelay rem (attempt + 1)
          (pyMin (delay * backoff) maxDelay)
        ⟨r.result, r.calls + 1, delay :: r.sleeps⟩
      else ⟨Except.error (some e), 1, []⟩

/-- `utils.retry_with_backoff` with its default parameters:
`initial_delay=1.0`, `backoff_factor=2.0`, `max_delay=60.0`. -/
def retryWithBackoff (ops : Nat → Except ε α) (maxRetries : Nat) : RetryTrace ε α :=
  retryAux ops 2 60 maxRetries 0 1

/-- The delay after `n` doublings capped at `maxDelay`, starting from
`d`. -/
def delaySeq (backoff maxDelay : ℚ) : ℚ → Nat → ℚ
  | d, 0 => d
  | d, Nat.succ n => delaySeq backoff maxDelay (pyMin (d * backoff) maxDelay) n

/-- `ChatCompletions._create_sync`'s dispatch: with `max_retries > 0`
the request runs under `retry_with_backoff`, otherwise it is called
directly, exactly once. -/
def createSyncRetries (maxRetries : Nat) (ops : Nat → Except ε α) : RetryTrace ε α :=
  if 0 < maxRetries then retryWithBackoff ops maxRetries
  else
    match ops 0 with
    | Except.ok a => ⟨Except.ok a, 1, []⟩
    | Except.error e => ⟨Except.error (some e), 1, []⟩

/-- The static capability table of `utils.validate_model_capability`. -/
def capabilities (model : Str) : List Str :=
  if model = "HCX-005".toList then ["vision".toList, "function_calling".toList]
  else if model = "HCX-007".toList then
    ["thinking".toList, "structured_output".toList, "function_calling".toList]
  else if model = "HCX-DASH-002".toList then ["function_calling".toList]
  else []

/-- `utils.validate_model_capability`: four feature-specific branches,
each raising `ValueError` when the model's capability list lacks that
feature; any other feature name falls through without a check. -/
def validateModelCapability (model feature : Str) : Except PyExc Unit :=
  let caps := capabilities model
  if feature = "thinking".toList ∧ ¬ ("thinking".toList ∈ caps) then
    Except.error (PyExc.valueError
      (("Model ".toList) ++ model ++ (" does not support thinking mode".toList)))
  else if feature = "vision".toList ∧ ¬ ("vision".toList ∈ caps) then
    Except.error (PyExc.valueError
      (("Model ".toList) ++ model ++ (" does not support image input".toList)))
  else if feature = "structured_output".toList ∧ ¬ ("structured_output".toList ∈ caps) then
    Except.error (PyExc.valueError
      (("Model ".toList) ++ model ++ (" does not support structured output".toList)))
  else if feature = "function_calling".toList ∧ ¬ ("function_calling".toList ∈ caps) then
    Except.error (PyExc.valueError
      (("Model ".toList) ++ model ++ (" does not support function calling".toList)))
  else Except.ok ()

/-- `types.ThinkingEffort`. -/
inductive ThinkingEffort where
  | none
  | low
  | medium
  | high
deriving DecidableEq, Repr

/-- `models.ThinkingConfig`. -/
structure ThinkingConfig where
  effort : ThinkingEffort
deriving DecidableEq, Repr

/-- `utils.get_max_tokens`: for `HCX-007` with a (truthy) thinking
effort, the static effort table; otherwise the per-model default table
(every entry 4096, default 4096). -/
def getMaxTokens (model : Str) (thinkingEffort : Option ThinkingEffort) : Int :=
  if model = "HCX-007".toList ∧ thinkingEffort.isSome then
    match thinkingEffort with
    | some ThinkingEffort.none => 512
    | some ThinkingEffort.low => 5120
    | some ThinkingEffort.medium => 10240
    | some ThinkingEffort.high => 20480
    | Option.none => 5120
  else if model = "HCX-005".toList then 4096
  else if model = "HCX-007".toList then 4096
  else if model = "HCX-DASH-002".toList then 4096
  else 4096

/-- The `model == "HCX-007"` branch of the token-parameter handling in
`ChatCompletions.create`: the value placed in `maxCompletionTokens`. -/
def hcx007MaxCompletionTokens (maxTokens maxCompletionTokens : Option Int)
    (thinking : Option ThinkingConfig) : Int :=
  match maxCompletionTokens with
  | some v => v
  | none =>
    match maxTokens with
    | some v => v
    | none =>
      match thinking with
      | some cfg => getMaxTokens ("HCX-007".toList) (some cfg.effort)
      | none => 2048

/-- The full token-parameter handling of `ChatCompletions.create`: the
(`maxTokens`, `maxCompletionTokens`) pair placed in `request_data`. -/
def selectTokenFields (model : Str) (maxTokens maxCompletionTokens : Option Int)
    (thinking : Option ThinkingConfig) : Option Int × Option Int :=
  if model = "HCX-007".toList then
    (none, some (hcx007MaxCompletionTokens maxTokens maxCompletionTokens thinking))
  else
    match maxTokens with
    | some v => (some v, none)
    | none =>
      match maxCompletionTokens with
      | some v => (some v, none)
      | none => (none, none)

/-- `models.ChatCompletionRequest.validate_token_params`: the request
fails validation exactly when both token fields are set. -/
def validTokenFields (maxTokensField maxCompletionTokensField : Option Int) : Bool :=
  ! (maxTokensField.isSome && maxCompletionTokensField.isSome)

/-- Building the request's token fields in `ChatCompletions.create`
followed by `ChatCompletionRequest` validation. -/
def buildTokenFields (model : Str) (maxTokens maxCompletionTokens : Option Int)
    (thinking : Option ThinkingConfig) : Except PyExc (Option Int × Option Int) :=
  let f := selectTokenFields model maxTokens maxCompletionTokens thinking
  if validTokenFields f.1 f.2 then Except.ok f
  else Except.error (PyExc.validationError
    ("Cannot use both maxTokens and maxCompletionTokens".toList))

/-- Python values as passed in message content lists (subset relevant
to `utils.prepare_message_content`). -/
inductive PyVal where
  | pstr : Str → PyVal
  | pint : Int → PyVal
  | pbool : Bool → PyVal
  | pnone : PyVal
  | plist : List PyVal → PyVal
  | pdict : List (Str × PyVal) → PyVal
deriving Repr

/-- First-match dictionary lookup (`item.get(k)` / `k in item`). -/
def lookupPy : List (Str × PyVal) → Str → Option PyVal
  | [], _ => none
  | p :: rest, k => if p.1 = k then some p.2 else lookupPy rest k

/-- One iteration of the item loop in `utils.prepare_message_content`:
`ok none` models an item that contributes nothing to the output. -/
def prepareItem (item : PyVal) : Except PyExc (Option PyVal) :=
  match item with
  | PyVal.pdict kvs =>
    match lookupPy kvs ("type".toList) with
    | some (PyVal.pstr ty) =>
      if ty = "text".toList then
        match lookupPy kvs ("text".toList) with
        | some t =>
          Except.ok (some (PyVal.pdict
            [(("type".toList), PyVal.pstr ("text".toList)), (("text".toList), t)]))
        | none => Except.error (PyExc.keyError ("text".toList))
      else if ty = "image_url".toList then
        match lookupPy kvs ("image_url".toList) with
        | some iu =>
          match iu with
          | PyVal.pdict kvs2 =>
            match lookupPy kvs2 ("url".toList) with
            | some u =>
              Except.ok (some (PyVal.pdict
                [(("type".toList), PyVal.pstr ("image_url".toList)),
                 (("imageUrl".toList), PyVal.pdict [(("url".toList), u)])]))
            | none => Except.error (PyExc.keyError ("url".toList))
          | _ => Except.error (PyExc.typeError ("value is not subscriptable".toList))
        | none =>
          match lookupPy kvs ("data_uri".toList) with
          | some du =>
            match du with
            | PyVal.pdict kvs2 =>
              match lookupPy kvs2 ("data".toList) with
              | some d =>
                Except.ok (some (PyVal.pdict
                  [(("type".toList), PyVal.pstr ("image_url".toList)),
                   (("dataUri".toList), PyVal.pdict [(("data".toList), d)])]))
              | none => Except.error (PyExc.keyError ("data".toList))
            | _ => Except.error (PyExc.typeError ("value is not subscriptable".toList))
          | none => Except.ok none
      else Except.ok none
    | _ => Except.ok none
  | _ => Except.ok none

/-- The item loop of `utils.prepare_message_content` on list content. -/
def prepareContentList : List PyVal → Except PyExc (List PyVal)
  | [] => Except.ok []
  | item :: rest =>
    match prepareItem item with
    | Except.error e => Except.error e
    | Except.ok none => prepareContentList rest
    | Except.ok (some v) => (prepareContentList rest).map (fun l => v :: l)

/-- `utils.prepare_message_content`: strings pass through unchanged,
lists go through the item loop (iterating a dict visits its string
keys, which are all skipped; non-iterable values raise `TypeError`). -/
def prepareMessageContent : PyVal → Except PyExc PyVal
  | PyVal.pstr s => Except.ok (PyVal.pstr s)
  | PyVal.plist xs => (prepareContentList xs).map PyVal.plist
  | PyVal.pdict _ => Except.ok (PyVal.plist [])
  | _ => Except.error (PyExc.typeError ("object is not iterable".toList))

/-- The items the claim says are silently dropped: anything that is not
a dict whose `type` is `text` or `image_url`, and an `image_url` item
carrying neither an `image_url` nor a `data_uri` source. -/
def droppableItem (item : PyVal) : Bool :=
  match item with
  | PyVal.pdict kvs =>
    match lookupPy kvs ("type".toList) with
    | some (PyVal.pstr ty) =>
      if ty = "text".toList then false
      else if ty = "image_url".toList then
        (lookupPy kvs ("image_url".toList)).isNone
          && (lookupPy kvs ("data_uri".toList)).isNone
      else true
    | _ => true
  | _ => true

/-- Invariant of the generator machine from a fresh start: the
transport is never closed while the body can still run, and at most
once after it finished. -/
def closeInvariant (g : Gen) : Prop :=
  match g.status with
  | GenStatus.notStarted _ => g.closes = 0
  | GenStatus.suspended _ => g.closes = 0
  | GenStatus.finished => g.closes ≤ 1

/-- Invariant of the generator machine once the body has been entered:
the transport is closed exactly when the generator finishes. -/
def startedInvariant (g : Gen) : Prop :=
  match g.status with
  | GenStatus.notStarted _ => False
  | GenStatus.suspended _ => g.closes = 0
  | GenStatus.finished => g.closes = 1

/-- The spec's example error payload,
`\x7b"status":\x7b"code":"42901","message":"rate limited"\x7d\x7d`. -/
def c2ErrData : Str :=
  "\x7b\"status\":\x7b\"code\":\"42901\",\"message\":\"rate limited\"\x7d\x7d".toList

/-- The JSON value of `c2ErrData`. -/
def c2ErrJVal : JVal :=
  JVal.jobj [(("status".toList),
    JVal.jobj [(("code".toList), JVal.jstr ("42901".toList)),
               (("message".toList), JVal.jstr ("rate limited".toList))])]

/-- An `error` SSE frame carrying `c2ErrData`. -/
def c2ErrFrame : SSEEvent :=
  { event := some ("error".toList), data := some c2ErrData }

/-- A well-formed `token` SSE frame, used as the frame after the error. -/
def c2TokenFrame : SSEEvent :=
  { event := some ("token".toList),
    data := some ("\x7b\"message\":\x7b\"role\":\"assistant\",\"content\":\"hi\"\x7d,\"created\":1,\"seed\":1\x7d".toList) }

/-- The transport line carrying the error frame. -/
def c2ErrLine : Str := ("event: error\ndata: ".toList) ++ c2ErrData

/-- The `StreamingError` raised by `_process_event` for `c2ErrFrame`. -/
def c2RaisedErr : PyExc :=
  PyExc.streamingError (("Streaming error: ".toList) ++ ("rate limited".toList))

/-- A transport line carrying one well-formed `token` frame. -/
def c8TokenLine : Str :=
  ("event: token\ndata: ".toList)
    ++ ("\x7b\"message\":\x7b\"role\":\"assistant\",\"content\":\"hi\"\x7d,\"created\":1,\"seed\":1\x7d".toList)

/-- A fresh generator state over one token line. -/
def c8St : IterSt := { buf := [], lines := [c8TokenLine], pending := [], pendingErr := none }

end HyperClova

namespace HyperClova

theorem splitBlankLine_sound :
    ∀ {s pre post : Str}, splitBlankLine s = some (pre, post) →
      s = pre ++ '\n' :: '\n' :: post := by
  intro s
  induction s with
  | nil => intro pre post h; simp [splitBlankLine] at h
  | cons c t ih =>
    intro pre post h
    rw [splitBlankLine] at h
    by_cases hc : c = '\n' ∧ t.head? = some '\n'
    · rw [if_pos hc] at h
      simp only [Option.some.injEq, Prod.mk.injEq] at h
      obtain ⟨h1, h2⟩ := h
      cases t with
      | nil => simp at hc
      | cons d t' =>
        obtain ⟨hc1, hc2⟩ := hc
        simp only [List.head?_cons, Option.some.injEq] at hc2
        simp only [List.tail_cons] at h2
        subst hc1 hc2 h2
        simp [← h1]
    · rw [if_neg hc] at h
      cases hsp : splitBlankLine t with
      | none => rw [hsp] at h; simp at h
      | some p =>
        rw [hsp] at h
        simp only [Option.map, Option.some.injEq, Prod.mk.injEq] at h
        obtain ⟨h1, h2⟩ := h
        have := ih (show splitBlankLine t = some (p.1, p.2) by rw [hsp])
        subst h2
        rw [← h1]
        simp [this]

theorem splitBlankLine_length {s pre post : Str}
    (h : splitBlankLine s = some (pre, post)) : post.length < s.length := by
  have := splitBlankLine_sound h
  subst this
  simp
  omega

theorem drainF_congr :
    ∀ (f : Nat) (buf : Str) (g : Nat), buf.length ≤ f → buf.length ≤ g →
      drainF f buf = drainF g buf := by
  intro f
  induction f with
  | zero =>
    intro buf g hf hg
    have hbe : buf = [] := List.length_eq_zero.mp (Nat.le_zero.mp hf)
    subst hbe
    cases g <;> rfl
  | succ f ih =>
    intro buf g hf hg
    cases g with
    | zero =>
      have hbe : buf = [] := List.length_eq_zero.mp (Nat.le_zero.mp hg)
      subst hbe
      rfl
    | succ g =>
      simp only [drainF]
      cases hsp : splitBlankLine buf with
      | none => rfl
      | some p =>
        have hlt : p.2.length < buf.length := by
          obtain ⟨pre, post⟩ := p
          exact splitBlankLine_length hsp
        dsimp only
        rw [ih p.2 g (by omega) (by omega)]

theorem drain_of_none {buf : Str} (h : splitBlankLine buf = none) :
    drain buf = ([], buf) := by
  rw [drain]
  rcases hn : buf.length with _ | n
  · rfl
  · simp only [drainF, h]

theorem drain_of_some {buf pre post : Str}
    (h : splitBlankLine buf = some (pre, post)) :
    drain buf = (consOpt (parseEvent pre) (drain post).1, (drain post).2) := by
  have hlen : post.length < buf.length := splitBlankLine_length h
  rcases hn : buf.length with _ | k
  · omega
  · rw [drain, hn]
    simp only [drainF, h]
    rw [drain]
    rw [drainF_congr k post post.length (by omega) le_rfl]

theorem splitBlankLine_append {s pre post : Str}
    (h : splitBlankLine s = some (pre, post)) (u : Str) :
    splitBlankLine (s ++ u) = some (pre, post ++ u) := by
  induction s generalizing pre post with
  | nil => simp [splitBlankLine] at h
  | cons c t ih =>
    rw [splitBlankLine] at h
    rw [List.cons_append, splitBlankLine]
    by_cases hc : c = '\n' ∧ t.head? = some '\n'
    · rw [if_pos hc] at h
      simp only [Option.some.injEq, Prod.mk.injEq] at h
      obtain ⟨h1, h2⟩ := h
      cases t with
      | nil => simp at hc
      | cons d t' =>
        obtain ⟨hc1, hc2⟩ := hc
        simp only [List.head?_cons, Option.some.injEq] at hc2
        rw [if_pos (by simp [hc1, hc2])]
        simp only [List.tail_cons] at h2
        simp [← h1, ← h2]
    · rw [if_neg hc] at h
      cases hsp : splitBlankLine t with
      | none => rw [hsp] at h; simp at h
      | some p =>
        rw [hsp] at h
        simp only [Option.map, Option.some.injEq, Prod.mk.injEq] at h
        obtain ⟨h1, h2⟩ := h
        have ht : t ≠ [] := by
          intro he; rw [he] at hsp; simp [splitBlankLine] at hsp
        have hcond : ¬(c = '\n' ∧ (t ++ u).head? = some '\n') := by
          intro ⟨he1, he2⟩
          apply hc
          refine ⟨he1, ?_⟩
          cases t with
          | nil => exact absurd rfl ht
          | cons d t' => simpa using he2
        rw [if_neg hcond, ih (by rw [hsp])]
        simp [← h1, ← h2]

theorem consOpt_append (o : Option α) (a b : List α) :
    consOpt o (a ++ b) = consOpt o a ++ b := by
  cases o <;> simp [consOpt]

theorem drain_append_aux :
    ∀ (n : Nat) (buf : Str), buf.length ≤ n → ∀ (u : Str),
      drain (buf ++ u) =
        ((drain buf).1 ++ (drain ((drain buf).2 ++ u)).1,
          (drain ((drain buf).2 ++ u)).2) := by
  intro n
  induction n with
  | zero =>
    intro buf hb u
    have hbe : buf = [] := List.length_eq_zero.mp (Nat.le_zero.mp hb)
    subst hbe
    have h0 : splitBlankLine ([] : Str) = none := rfl
    rw [drain_of_none h0]
    simp
  | succ n ih =>
    intro buf hb u
    cases hsp : splitBlankLine buf with
    | none =>
      rw [drain_of_none hsp]
      simp
    | some p =>
      obtain ⟨pre, post⟩ := p
      have hs2 : splitBlankLine (buf ++ u) = some (pre, post ++ u) :=
        splitBlankLine_append hsp u
      rw [drain_of_some hsp, drain_of_some hs2]
      have hlen : post.length ≤ n := by
        have := splitBlankLine_length hsp
        omega
      rw [ih post hlen u]
      simp [consOpt_append]

theorem drain_append (buf u : Str) :
    drain (buf ++ u) =
      ((drain buf).1 ++ (drain ((drain buf).2 ++ u)).1,
        (drain ((drain buf).2 ++ u)).2) :=
  drain_append_aux buf.length buf le_rfl u

theorem drain_residual_aux :
    ∀ (n : Nat) (buf : Str), buf.length ≤ n →
      splitBlankLine (drain buf).2 = none := by
  intro n
  induction n with
  | zero =>
    intro buf hb
    have hbe : buf = [] := List.length_eq_zero.mp (Nat.le_zero.mp hb)
    subst hbe
    have h0 : splitBlankLine ([] : Str) = none := rfl
    rw [drain_of_none h0]
    rfl
  | succ n ih =>
    intro buf hb
    cases hsp : splitBlankLine buf with
    | none => rw [drain_of_none hsp]; exact hsp
    | some p =>
      obtain ⟨pre, post⟩ := p
      rw [drain_of_some hsp]
      have hlen : post.length ≤ n := by
        have := splitBlankLine_length hsp
        omega
      exact ih post hlen

theorem drain_residual (buf : Str) : splitBlankLine (drain buf).2 = none :=
  drain_residual_aux buf.length buf le_rfl

theorem feedAll_drained :
    ∀ (cs : List Str) (buf : Str), splitBlankLine buf = none →
      feedAll buf cs = drain (buf ++ cs.flatten) := by
  intro cs
  induction cs with
  | nil =>
    intro buf hb
    simp [feedAll, drain_of_none hb]
  | cons c cs ih =>
    intro buf hb
    rw [feedAll]
    simp only [parseSSE]
    have hres := drain_residual (buf ++ c)
    rw [ih _ hres]
    simp only [List.flatten_cons, ← List.append_assoc]
    rw [drain_append (buf ++ c) cs.flatten]

theorem splitFirst_sound {sep : Char} :
    ∀ {l : Str} {fv : Str × Str}, splitFirst sep l = some fv →
      l = fv.1 ++ sep :: fv.2 := by
  intro l
  induction l with
  | nil => intro fv h; simp [splitFirst] at h
  | cons c t ih =>
    intro fv h
    rw [splitFirst] at h
    by_cases hc : c = sep
    · rw [if_pos hc] at h
      simp only [Option.some.injEq] at h
      subst h
      simp [hc]
    · rw [if_neg hc] at h
      cases hsp : splitFirst sep t with
      | none => rw [hsp] at h; simp at h
      | some p =>
        rw [hsp] at h
        simp only [Option.map, Option.some.injEq] at h
        subst h
        have := ih hsp
        simp [this]

theorem applyLine_data (ev : SSEEvent) (line : Str) :
    (applyLine ev line).data = (dataLineValue line).or ev.data := by
  rw [applyLine, dataLineValue]
  by_cases he : line = []
  · rw [if_pos he, if_pos he]; rfl
  · rw [if_neg he, if_neg he]
    cases hsp : splitFirst ':' line with
    | none => rfl
    | some fv =>
      dsimp only
      by_cases hid : fv.1 = "id".toList
      · rw [if_pos hid, if_neg (show ¬ fv.1 = "data".toList by rw [hid]; decide)]
        rfl
      · rw [if_neg hid]
        by_cases hev2 : fv.1 = "event".toList
        · rw [if_pos hev2, if_neg (show ¬ fv.1 = "data".toList by rw [hev2]; decide)]
          rfl
        · rw [if_neg hev2]
          by_cases hda : fv.1 = "data".toList
          · rw [if_pos hda, if_pos hda]; rfl
          · rw [if_neg hda, if_neg hda]
            by_cases hre : fv.1 = "retry".toList
            · rw [if_pos hre]
              rcases hpi : pyParseInt (pyLStrip fv.2) with _ | n <;> rfl
            · rw [if_neg hre]; rfl

theorem foldl_applyLine_data (lines : List Str) (ev : SSEEvent) :
    (lines.foldl applyLine ev).data = (lastDataValue lines).or ev.data := by
  induction lines generalizing ev with
  | nil => simp [lastDataValue, Option.or]
  | cons l ls ih =>
    rw [List.foldl_cons, ih (applyLine ev l), applyLine_data]
    simp only [lastDataValue, List.foldr_cons]
    rw [Option.or_assoc]

theorem mem_splitOnChar {sep : Char} :
    ∀ {s l : Str}, l ∈ splitOnChar sep s → ∀ c ∈ l, c ∈ s := by
  intro s
  induction s with
  | nil =>
    intro l hl c hc
    simp [splitOnChar] at hl
    subst hl
    simp at hc
  | cons a t ih =>
    intro l hl c hc
    rw [splitOnChar] at hl
    by_cases ha : a = sep
    · rw [if_pos ha] at hl
      rcases List.mem_cons.mp hl with h | h
      · subst h; simp at hc
      · exact List.mem_cons_of_mem a (ih h c hc)
    · rw [if_neg ha] at hl
      cases hr : splitOnChar sep t with
      | nil =>
        rw [hr] at hl
        simp at hl
        subst hl
        simp at hc
        simp [hc]
      | cons l0 ls =>
        rw [hr] at hl
        rcases List.mem_cons.mp hl with h | h
        · subst h
          rcases List.mem_cons.mp hc with h2 | h2
          · simp [h2]
          · exact List.mem_cons_of_mem a (ih (by rw [hr]; exact List.mem_cons_self l0 ls) c h2)
        · exact List.mem_cons_of_mem a (ih (by rw [hr]; exact List.mem_cons_of_mem l0 h) c hc)

theorem dataLineValue_of_space {l : Str} (h : l.all isPySpace = true) :
    dataLineValue l = none := by
  rw [dataLineValue]
  by_cases he : l = []
  · simp [he]
  · rw [if_neg he]
    cases hsp : splitFirst ':' l with
    | none => rfl
    | some fv =>
      exfalso
      have hl := splitFirst_sound hsp
      have : (':' : Char) ∈ l := by rw [hl]; simp
      have := List.all_eq_true.mp h _ this
      simp [isPySpace] at this

theorem lastDataValue_eq_none {lines : List Str}
    (h : ∀ l ∈ lines, dataLineValue l = none) : lastDataValue lines = none := by
  induction lines with
  | nil => rfl
  | cons l ls ih =>
    rw [lastDataValue, List.foldr_cons]
    have h1 : lastDataValue ls = none := ih (fun x hx => h x (List.mem_cons_of_mem l hx))
    rw [lastDataValue] at h1
    rw [h1, h l (List.mem_cons_self l ls)]
    rfl

theorem dataTruthy_iff (o : Option Str) :
    dataTruthy o = true ↔ ∃ v, o = some v ∧ v ≠ [] := by
  cases o with
  | none => simp [dataTruthy]
  | some v =>
    cases v with
    | nil => simp [dataTruthy]
    | cons c t => simp [dataTruthy]

/-- C1: for every sequence of SSE text chunks, feeding them to one
`SSEParser` instance one `parse` call at a time yields exactly the same
frames in the same order (with the same leftover buffer) as feeding
their concatenation in a single `parse` call; in particular a frame
split across two chunks at an arbitrary boundary yields exactly one
frame identical to the unfragmented case, and two complete back-to-back
frames in one chunk are both yielded, in order, by one call. -/
theorem sse_parse_chunking_invariance (chunks : List Str) :
    feedAll [] chunks = parseSSE [] chunks.flatten := by
  have h := feedAll_drained chunks [] rfl
  simpa [parseSSE] using h

/-- C6 counterexample: the event block `"data:"` textually carries a
`data` field, yet `_parse_event` emits no frame, because the empty
value is falsy in Python; so "emits a frame iff the data field is
present" fails as stated. -/
theorem sse_present_empty_data_counterexample :
    hasDataField ("data:".toList) = true ∧ parseEvent ("data:".toList) = none :=
  ⟨rfl, rfl⟩

/-- C6 (amended): `_parse_event` emits a frame iff the block carries a
`data` line whose last occurrence has a nonempty left-stripped value;
blocks with no data field, whitespace-only blocks and blocks of
field-less lines therefore yield no frame. -/
theorem sse_frame_iff_nonempty_data (s : Str) :
    (parseEvent s).isSome = true ↔
      ∃ v, lastDataValue (splitOnChar '\n' s) = some v ∧ v ≠ [] := by
  have key : (parseEvent s).isSome = dataTruthy (lastDataValue (splitOnChar '\n' s)) := by
    rw [parseEvent]
    by_cases hb : pyBlank s = true
    · rw [if_pos hb]
      have hnone : lastDataValue (splitOnChar '\n' s) = none := by
        apply lastDataValue_eq_none
        intro l hl
        apply dataLineValue_of_space
        rw [List.all_eq_true]
        intro c hc
        rw [pyBlank] at hb
        exact List.all_eq_true.mp hb c (mem_splitOnChar hl c hc)
      rw [hnone]
      rfl
    · rw [if_neg hb]
      dsimp only
      have hinit : (({} : SSEEvent)).data = none := rfl
      rw [foldl_applyLine_data, hinit]
      cases hL : lastDataValue (splitOnChar '\n' s) with
      | none => rfl
      | some v => cases v <;> rfl
  rw [key]
  exact dataTruthy_iff _

/-- C3: for the reasoning model HCX-007 the built request's
`maxCompletionTokens` is determined by the first available source in
this order: an explicitly supplied token value (the
`max_completion_tokens` argument, or the `max_tokens` alias folded into
the completion-token field), otherwise the static effort table
(none→512, low→5120, medium→10240, high→20480) when a thinking config
is supplied, otherwise the fixed fallback 2048. -/
theorem hcx007_token_limit_precedence (mt mct : Option Int) (th : Option ThinkingConfig) :
    (∀ v, mct = some v → hcx007MaxCompletionTokens mt mct th = v)
    ∧ (∀ v, mct = none → mt = some v → hcx007MaxCompletionTokens mt mct th = v)
    ∧ (∀ cfg, mct = none → mt = none → th = some cfg →
        hcx007MaxCompletionTokens mt mct th =
          (match cfg.effort with
           | ThinkingEffort.none => 512
           | ThinkingEffort.low => 5120
           | ThinkingEffort.medium => 10240
           | ThinkingEffort.high => 20480))
    ∧ (mct = none → mt = none → th = none → hcx007MaxCompletionTokens mt mct th = 2048) := by
  refine ⟨?_, ?_, ?_, ?_⟩
  · intro v h
    subst h
    rfl
  · intro v h1 h2
    subst h1
    subst h2
    rfl
  · intro cfg h1 h2 h3
    subst h1
    subst h2
    subst h3
    obtain ⟨eff⟩ := cfg
    cases eff <;> rfl
  · intro h1 h2 h3
    subst h1
    subst h2
    subst h3
    rfl

/-- C3 witness: concrete inputs for each branch of the precedence. -/
theorem hcx007_token_limit_precedence_witness :
    hcx007MaxCompletionTokens none (some 777) (some ⟨ThinkingEffort.high⟩) = 777
    ∧ hcx007MaxCompletionTokens (some 300) none (some ⟨ThinkingEffort.high⟩) = 300
    ∧ hcx007MaxCompletionTokens none none (some ⟨ThinkingEffort.medium⟩) = 10240
    ∧ hcx007MaxCompletionTokens none none none = 2048 := by
  refine ⟨(hcx007_token_limit_precedence none (some 777) _).1 777 rfl,
    (hcx007_token_limit_precedence (some 300) none _).2.1 300 rfl rfl,
    (hcx007_token_limit_precedence none none _).2.2.1 ⟨ThinkingEffort.medium⟩ rfl rfl rfl,
    (hcx007_token_limit_precedence none none none).2.2.2 rfl rfl rfl⟩

/-- C4 (code bug): building a request through `ChatCompletions.create`
with both `max_tokens=10` and `max_completion_tokens=20` supplied does
not fail: the model-specific folding keeps only one field (for
HCX-005, `maxTokens=10`; for HCX-007, `maxCompletionTokens=20`), so
`ChatCompletionRequest.validate_token_params` — which does reject a
request carrying both fields — never sees the conflict, contradicting
`create`'s own docstring ("mutually exclusive with
max_completion_tokens"). -/
theorem both_token_fields_silently_folded :
    buildTokenFields ("HCX-005".toList) (some 10) (some 20) none = Except.ok (some 10, none)
    ∧ buildTokenFields ("HCX-007".toList) (some 10) (some 20) none
        = Except.ok (none, some 20)
    ∧ validTokenFields (some 10) (some 20) = false :=
  ⟨rfl, rfl, rfl⟩

/-- C7 counterexample: the feature string `"embedding"` is not in the
capability table entry for HCX-005, yet `validate_model_capability`
succeeds, because only the four recognised feature names are ever
checked. -/
theorem validate_unknown_feature_counterexample :
    validateModelCapability ("HCX-005".toList) ("embedding".toList) = Except.ok ()
    ∧ ("embedding".toList ∉ capabilities ("HCX-005".toList)) := by
  constructor
  · rfl
  · decide

/-- C7 (amended): `validate_model_capability` fails exactly when the
feature is one of the four recognised names (thinking, vision,
structured_output, function_calling) and is not in the capability
table's entry for the model; every other (model, feature) pair —
including any unrecognised feature name — succeeds. -/
theorem validate_capability_iff (model feature : Str) :
    (∃ e, validateModelCapability model feature = Except.error e) ↔
      (feature ∈ [("thinking".toList), ("vision".toList), ("structured_output".toList),
        ("function_calling".toList)] ∧ feature ∉ capabilities model) := by
  rw [validateModelCapability]
  by_cases h1 : feature = "thinking".toList ∧ ¬ ("thinking".toList ∈ capabilities model)
  · rw [if_pos h1]
    exact ⟨fun _ => ⟨by simp [h1.1], by rw [h1.1]; exact h1.2⟩, fun _ => ⟨_, rfl⟩⟩
  · rw [if_neg h1]
    by_cases h2 : feature = "vision".toList ∧ ¬ ("vision".toList ∈ capabilities model)
    · rw [if_pos h2]
      exact ⟨fun _ => ⟨by simp [h2.1], by rw [h2.1]; exact h2.2⟩, fun _ => ⟨_, rfl⟩⟩
    · rw [if_neg h2]
      by_cases h3 : feature = "structured_output".toList
          ∧ ¬ ("structured_output".toList ∈ capabilities model)
      · rw [if_pos h3]
        exact ⟨fun _ => ⟨by simp [h3.1], by rw [h3.1]; exact h3.2⟩, fun _ => ⟨_, rfl⟩⟩
      · rw [if_neg h3]
        by_cases h4 : feature = "function_calling".toList
            ∧ ¬ ("function_calling".toList ∈ capabilities model)
        · rw [if_pos h4]
          exact ⟨fun _ => ⟨by simp [h4.1], by rw [h4.1]; exact h4.2⟩, fun _ => ⟨_, rfl⟩⟩
        · rw [if_neg h4]
          constructor
          · rintro ⟨e, he⟩
            exact absurd he (by simp)
          · rintro ⟨hmem, hnot⟩
            exfalso
            push_neg at h1 h2 h3 h4
            simp only [List.mem_cons, List.mem_singleton, List.not_mem_nil, or_false] at hmem
            rcases hmem with h | h | h | h
            · subst h; exact hnot (h1 rfl)
            · subst h; exact hnot (h2 rfl)
            · subst h; exact hnot (h3 rfl)
            · subst h; exact hnot (h4 rfl)

theorem retryAux_calls_le {ε α : Type} (ops : Nat → Except ε α) (b M : ℚ) :
    ∀ (rem attempt : Nat) (d : ℚ), (retryAux ops b M rem attempt d).calls ≤ rem := by
  intro rem
  induction rem with
  | zero => intro attempt d; exact le_rfl
  | succ rem ih =>
    intro attempt d
    simp only [retryAux]
    cases hop : ops attempt with
    | ok a => simp
    | error e =>
      dsimp only
      by_cases h2 : 0 < rem
      · rw [if_pos h2]
        dsimp only
        have := ih (attempt + 1) (pyMin (d * b) M)
        omega
      · rw [if_neg h2]
        simp

theorem retryAux_calls_pos {ε α : Type} (ops : Nat → Except ε α) (b M : ℚ)
    (rem attempt : Nat) (d : ℚ) (h : 0 < rem) :
    1 ≤ (retryAux ops b M rem attempt d).calls := by
  cases rem with
  | zero => omega
  | succ rem =>
    simp only [retryAux]
    cases hop : ops attempt with
    | ok a => simp
    | error e =>
      dsimp only
      by_cases h2 : 0 < rem
      · rw [if_pos h2]
        dsimp only
        omega
      · rw [if_neg h2]

theorem retryAux_sleeps {ε α : Type} (ops : Nat → Except ε α) (b M : ℚ) :
    ∀ (rem attempt : Nat) (d : ℚ),
      (retryAux ops b M rem attempt d).sleeps =
        (List.range ((retryAux ops b M rem attempt d).calls - 1)).map (delaySeq b M d) := by
  intro rem
  induction rem with
  | zero => intro attempt d; rfl
  | succ rem ih =>
    intro attempt d
    simp only [retryAux]
    cases hop : ops attempt with
    | ok a => rfl
    | error e =>
      dsimp only
      by_cases h2 : 0 < rem
      · rw [if_pos h2]
        dsimp only
        have hpos := retryAux_calls_pos ops b M rem (attempt + 1) (pyMin (d * b) M) h2
        rcases hc : (retryAux ops b M rem (attempt + 1) (pyMin (d * b) M)).calls with _ | m
        · omega
        · rw [ih (attempt + 1) (pyMin (d * b) M), hc]
          show _ = (List.range (m + 1)).map (delaySeq b M d)
          rw [List.range_succ_eq_map, List.map_cons, List.map_map]
          congr 1
      · rw [if_neg h2]
        rfl

theorem pyMin_eq_min (a b : ℚ) : pyMin a b = min a b := by
  simp [pyMin, min_def]

theorem delaySeq_pow :
    ∀ (i k : Nat), delaySeq 2 60 (pyMin ((2:ℚ) ^ k) 60) i = pyMin ((2:ℚ) ^ (k + i)) 60 := by
  intro i
  induction i with
  | zero => intro k; rfl
  | succ i ih =>
    intro k
    have harg : pyMin (pyMin ((2:ℚ) ^ k) 60 * 2) 60 = pyMin ((2:ℚ) ^ (k + 1)) 60 := by
      rw [pyMin_eq_min, pyMin_eq_min, pyMin_eq_min]
      rcases le_total ((2:ℚ) ^ k) 60 with hle | hge
      · rw [min_eq_left hle, ← pow_succ]
      · rw [min_eq_right hge, min_eq_right (by norm_num : (60:ℚ) ≤ 60 * 2)]
        rw [min_eq_right (by rw [pow_succ]; nlinarith [hge])]
    show delaySeq 2 60 (pyMin (pyMin ((2:ℚ) ^ k) 60 * 2) 60) i = _
    rw [harg, ih (k + 1)]
    have heq : k + 1 + i = k + (i + 1) := by omega
    rw [heq]

theorem delaySeq_one (i : Nat) : delaySeq 2 60 1 i = min ((2:ℚ) ^ i) 60 := by
  have h := delaySeq_pow i 0
  have h1 : pyMin ((2:ℚ) ^ 0) 60 = 1 := by
    rw [pyMin_eq_min]
    norm_num
  rw [h1] at h
  rw [h, pyMin_eq_min]
  norm_num

theorem retryAux_all_fail {ε α : Type} (ops : Nat → Except ε α) (b M : ℚ) :
    ∀ (rem attempt : Nat) (d : ℚ) (e : ε), 0 < rem →
      (∀ i, attempt ≤ i → i < attempt + rem → ∃ er, ops i = Except.error er) →
      ops (attempt + rem - 1) = Except.error e →
      (retryAux ops b M rem attempt d).result = Except.error (some e) := by
  intro rem
  induction rem with
  | zero =>
    intro attempt d e h hall hlast
    exact absurd h (lt_irrefl 0)
  | succ rem ih =>
    intro attempt d e hpos hall hlast
    simp only [retryAux]
    obtain ⟨er, her⟩ := hall attempt le_rfl (by omega)
    simp only [her]
    by_cases h2 : 0 < rem
    · rw [if_pos h2]
      dsimp only
      exact ih (attempt + 1) (pyMin (d * b) M) e h2
        (fun i hi1 hi2 => hall i (by omega) (by omega))
        (by
          have heq : attempt + 1 + rem - 1 = attempt + (rem + 1) - 1 := by omega
          rw [heq]
          exact hlast)
    · rw [if_neg h2]
      dsimp only
      have hrem : rem = 0 := by omega
      subst hrem
      have heq : attempt + 1 - 1 = attempt := by omega
      rw [heq] at hlast
      rw [her] at hlast
      injection hlast with he
      rw [he]

/-- C5: `retry_with_backoff` with `max_retries = N ≥ 1` calls the
operation at most `N` times; between consecutive attempts it sleeps
with delays starting at 1.0 and doubling each retry, capped at 60 (so
for `N = 3` and two failures: 1.0 then 2.0); and when every attempt
fails, the exact exception of the final attempt propagates unchanged. -/
theorem retry_backoff_behavior {ε α : Type} (ops : Nat → Except ε α) (N : Nat)
    (hN : 1 ≤ N) :
    (retryWithBackoff ops N).calls ≤ N
    ∧ (retryWithBackoff ops N).sleeps =
        (List.range ((retryWithBackoff ops N).calls - 1)).map
          (fun i => min ((2:ℚ) ^ i) 60)
    ∧ (∀ e : ε, (∀ i, i < N → ∃ er, ops i = Except.error er) →
        ops (N - 1) = Except.error e →
        (retryWithBackoff ops N).result = Except.error (some e)) := by
  refine ⟨retryAux_calls_le ops 2 60 N 0 1, ?_, ?_⟩
  · rw [retryWithBackoff, retryAux_sleeps ops 2 60 N 0 1]
    congr 1
    funext i
    exact delaySeq_one i
  · intro e hall hlast
    exact retryAux_all_fail ops 2 60 N 0 1 e (by omega)
      (fun i hi1 hi2 => hall i (by omega)) (by simpa using hlast)

/-- C5 witness: three attempts that all fail (attempt `i` raises
exception `i`): at most 3 calls, the sleeps follow the capped doubling
sequence, and the final attempt's exception (2) propagates. -/
theorem retry_backoff_behavior_witness :
    (retryWithBackoff (fun i => (Except.error i : Except Nat Nat)) 3).calls ≤ 3
    ∧ (retryWithBackoff (fun i => (Except.error i : Except Nat Nat)) 3).sleeps =
        (List.range
          ((retryWithBackoff (fun i => (Except.error i : Except Nat Nat)) 3).calls - 1)).map
          (fun i => min ((2:ℚ) ^ i) 60)
    ∧ (retryWithBackoff (fun i => (Except.error i : Except Nat Nat)) 3).result
        = Except.error (some 2)
    ∧ (retryWithBackoff (fun i => (Except.error i : Except Nat Nat)) 3).calls = 3 := by
  have h := retry_backoff_behavior (fun i => (Except.error i : Except Nat Nat)) 3 (by omega)
  exact ⟨h.1, h.2.1, h.2.2 2 (fun i hi => ⟨i, rfl⟩) rfl, rfl⟩

/-- C9 counterexample: calling the retry driver itself with
`max_retries=0` never calls the operation (0 calls, not 1) and ends in
`raise last_exception` with `last_exception = None` (a `TypeError`),
even when the operation would have succeeded. -/
theorem retry_zero_counterexample :
    (retryWithBackoff (fun _ => (Except.ok 7 : Except Nat Nat)) 0).calls = 0
    ∧ (retryWithBackoff (fun _ => (Except.ok 7 : Except Nat Nat)) 0).result
        = Except.error none :=
  ⟨rfl, rfl⟩

/-- C9 (amended): `max_retries=0` means "call once, no retry wrapper"
only through `_create_sync`'s dispatch, which bypasses the driver and
calls the operation directly exactly once with no sleeping, returning
its result or propagating its exception; `retry_with_backoff` itself,
called with `max_retries=0`, performs zero calls and raises `None`. -/
theorem retry_zero_dispatch {ε α : Type} (ops : Nat → Except ε α) :
    (createSyncRetries 0 ops).calls = 1
    ∧ (createSyncRetries 0 ops).sleeps = []
    ∧ (∀ a, ops 0 = Except.ok a → (createSyncRetries 0 ops).result = Except.ok a)
    ∧ (∀ e, ops 0 = Except.error e →
        (createSyncRetries 0 ops).result = Except.error (some e))
    ∧ (retryWithBackoff ops 0).calls = 0
    ∧ (retryWithBackoff ops 0).result = Except.error none := by
  refine ⟨?_, ?_, ?_, ?_, rfl, rfl⟩
  · rw [createSyncRetries, if_neg (by omega)]
    cases hop : ops 0 <;> rfl
  · rw [createSyncRetries, if_neg (by omega)]
    cases hop : ops 0 <;> rfl
  · intro a h
    rw [createSyncRetries, if_neg (by omega)]
    simp only [h]
  · intro e h
    rw [createSyncRetries, if_neg (by omega)]
    simp only [h]

/-- C9 witness: concrete success and failure operations under the
`max_retries=0` dispatch. -/
theorem retry_zero_dispatch_witness :
    (createSyncRetries 0 (fun _ => (Except.ok 5 : Except Nat Nat))).calls = 1
    ∧ (createSyncRetries 0 (fun _ => (Except.ok 5 : Except Nat Nat))).result = Except.ok 5
    ∧ (createSyncRetries 0 (fun _ => (Except.error 9 : Except Nat Nat))).result
        = Except.error (some 9) :=
  ⟨(retry_zero_dispatch _).1, (retry_zero_dispatch _).2.2.1 5 rfl,
    (retry_zero_dispatch _).2.2.2.1 9 rfl⟩

/-- C2: an SSE frame named `error` whose data parses as JSON makes the
decoder fail with a `StreamingError` carrying the embedded status
message; chunks already decoded are kept but no frame after the error
frame contributes anything, and the line loop terminates the sequence
with the wrapped `StreamingError`. -/
theorem stream_error_event_terminates :
    (∀ (ev : SSEEvent) (j : JVal) (m : Str),
        ev.event = some ("error".toList) →
        dataTruthy ev.data = true →
        jloads (ev.data.getD []) = some j →
        statusMessageOf j = Except.ok m →
        processEvent ev =
          Except.error (PyExc.streamingError (("Streaming error: ".toList) ++ m)))
    ∧ (∀ (pre post : List SSEEvent) (ev : SSEEvent) (cs : List Chunk) (e : PyExc),
        processEvents pre = (cs, none) →
        processEvent ev = Except.error e →
        processEvents (pre ++ ev :: post) = (cs, some e))
    ∧ (∀ (buf line : Str) (rest : List Str) (cs : List Chunk) (e : PyExc),
        line ≠ [] →
        processEvents (drain (buf ++ line ++ [ '\n', '\n' ])).1 = (cs, some e) →
        iterChunks buf (line :: rest) = (cs, some (wrapStreamErr e))) := by
  refine ⟨?_, ?_, ?_⟩
  · intro ev j m h1 h2 h3 h4
    rw [processEvent, if_neg (by rw [h2]; simp)]
    simp only [h3]
    rw [if_pos h1]
    simp only [h4]
  · intro pre post ev cs e hpre hev
    induction pre generalizing cs with
    | nil =>
      simp only [processEvents] at hpre
      have hcs : cs = [] := by
        have := congrArg Prod.fst hpre
        simpa using this.symm
      subst hcs
      simp only [List.nil_append, processEvents, hev]
    | cons a pre ih =>
      simp only [processEvents] at hpre
      cases ha : processEvent a with
      | error e2 =>
        rw [ha] at hpre
        simp at hpre
      | ok o =>
        cases o with
        | none =>
          rw [ha] at hpre
          dsimp only at hpre
          rw [List.cons_append]
          simp only [processEvents, ha]
          exact ih cs hpre
        | some c =>
          rw [ha] at hpre
          dsimp only at hpre
          have h1 : cs = c :: (processEvents pre).1 := by
            have := congrArg Prod.fst hpre
            simpa using this.symm
          have h2 : (processEvents pre).2 = none := by
            have := congrArg Prod.snd hpre
            simpa using this
          have hpe : processEvents pre = ((processEvents pre).1, none) := by
            rw [← h2]
          have hrec := ih (processEvents pre).1 hpe
          rw [List.cons_append]
          simp only [processEvents, ha]
          rw [hrec, h1]
  · intro buf line rest cs e hne hproc
    simp only [iterChunks, if_neg hne]
    rw [hproc]

/-- C2 witness: the spec's example error frame
(`status.code=42901`, `message="rate limited"`), followed by a frame
that is never processed. -/
theorem stream_error_event_terminates_witness :
    processEvent c2ErrFrame = Except.error c2RaisedErr
    ∧ processEvents ([] ++ c2ErrFrame :: [c2TokenFrame]) = ([], some c2RaisedErr)
    ∧ iterChunks [] [c2ErrLine, ("data: x".toList)]
        = ([], some (wrapStreamErr c2RaisedErr)) :=
  ⟨stream_error_event_terminates.1 c2ErrFrame c2ErrJVal ("rate limited".toList)
      rfl rfl rfl rfl,
    stream_error_event_terminates.2.1 [] [c2TokenFrame] c2ErrFrame [] c2RaisedErr rfl rfl,
    stream_error_event_terminates.2.2 [] c2ErrLine [("data: x".toList)] [] c2RaisedErr
      (by decide) rfl⟩

theorem prepareItem_droppable {item : PyVal} (h : droppableItem item = true) :
    prepareItem item = Except.ok none := by
  cases item with
  | pdict kvs =>
    simp only [droppableItem] at h
    simp only [prepareItem]
    cases hty : lookupPy kvs ("type".toList) with
    | none => rfl
    | some v =>
      rw [hty] at h
      cases v with
      | pstr ty =>
        dsimp only at h ⊢
        by_cases h1 : ty = "text".toList
        · rw [if_pos h1] at h
          simp at h
        · rw [if_neg h1] at h ⊢
          by_cases h2 : ty = "image_url".toList
          · rw [if_pos h2] at h ⊢
            have hiu : lookupPy kvs ("image_url".toList) = none := by
              rcases hx : lookupPy kvs ("image_url".toList) with _ | w
              · rfl
              · rw [hx] at h
                simp at h
            have hdu : lookupPy kvs ("data_uri".toList) = none := by
              rcases hx : lookupPy kvs ("data_uri".toList) with _ | w
              · rfl
              · rw [hx] at h
                simp at h
            rw [hiu, hdu]
          · rw [if_neg h2] at h ⊢
      | pint n => rfl
      | pbool b => rfl
      | pnone => rfl
      | plist xs => rfl
      | pdict kvs2 => rfl
  | pstr s => rfl
  | pint n => rfl
  | pbool b => rfl
  | pnone => rfl
  | plist xs => rfl

/-- C10: `prepare_message_content` silently drops every list item that
is not a dict tagged `text` or `image_url`, and silently drops an
`image_url` item carrying neither an `image_url` nor a `data_uri`
source: removing such an item does not change the result at all (so no
error comes from it), and a successfully prepared list is never longer
than its input. -/
theorem prepare_content_silent_drop (pre post : List PyVal) (item : PyVal)
    (h : droppableItem item = true) :
    prepareContentList (pre ++ item :: post) = prepareContentList (pre ++ post)
    ∧ (∀ (xs out : List PyVal),
        prepareContentList xs = Except.ok out → out.length ≤ xs.length) := by
  constructor
  · induction pre with
    | nil =>
      simp only [List.nil_append, processEvents, prepareContentList,
        prepareItem_droppable h]
    | cons a pre ih =>
      simp only [List.cons_append, prepareContentList]
      cases ha : prepareItem a with
      | error e2 => rfl
      | ok o =>
        cases o with
        | none => exact ih
        | some v =>
          dsimp only
          simp only [List.append_eq]
          rw [ih]
  · intro xs
    induction xs with
    | nil =>
      intro out hx
      simp only [prepareContentList, Except.ok.injEq] at hx
      subst hx
      simp
    | cons a xs ih =>
      intro out hx
      simp only [prepareContentList] at hx
      cases ha : prepareItem a with
      | error e2 =>
        rw [ha] at hx
        simp at hx
      | ok o =>
        rw [ha] at hx
        cases o with
        | none =>
          dsimp only at hx
          have := ih out hx
          simp only [List.length_cons]
          omega
        | some v =>
          dsimp only at hx
          rcases hrec : prepareContentList xs with e2 | l
          · rw [hrec] at hx
            simp [Except.map] at hx
          · rw [hrec] at hx
            simp only [Except.map, Except.ok.injEq] at hx
            subst hx
            have := ih l hrec
            simp only [List.length_cons]
            omega

/-- C10 witness: a kept text item followed by a dropped unknown-tag
item, a dropped source-less `image_url` item, and a dropped non-dict
item. -/
theorem prepare_content_silent_drop_witness :
    prepareContentList
        [PyVal.pdict [(("type".toList), PyVal.pstr ("text".toList)),
          (("text".toList), PyVal.pstr ("hello".toList))],
         PyVal.pdict [(("type".toList), PyVal.pstr ("audio".toList))]]
      = prepareContentList
        [PyVal.pdict [(("type".toList), PyVal.pstr ("text".toList)),
          (("text".toList), PyVal.pstr ("hello".toList))]]
    ∧ prepareContentList [PyVal.pdict [(("type".toList), PyVal.pstr ("image_url".toList))]]
        = prepareContentList []
    ∧ prepareContentList [PyVal.pstr ("raw".toList)] = prepareContentList [] :=
  ⟨(prepare_content_silent_drop
      [PyVal.pdict [(("type".toList), PyVal.pstr ("text".toList)),
        (("text".toList), PyVal.pstr ("hello".toList))]] []
      (PyVal.pdict [(("type".toList), PyVal.pstr ("audio".toList))]) rfl).1,
    (prepare_content_silent_drop [] []
      (PyVal.pdict [(("type".toList), PyVal.pstr ("image_url".toList))]) rfl).1,
    (prepare_content_silent_drop [] [] (PyVal.pstr ("raw".toList)) rfl).1⟩

theorem closeInvariant_next {g : Gen} (h : closeInvariant g) :
    closeInvariant (genNext g).1 := by
  obtain ⟨status, closes⟩ := g
  cases status with
  | notStarted st =>
    simp only [closeInvariant] at h
    simp only [genNext]
    cases hr : runToYield st with
    | inl cs => simpa [closeInvariant] using h
    | inr o => cases o <;> simp [closeInvariant, h]
  | suspended st =>
    simp only [closeInvariant] at h
    simp only [genNext]
    cases hr : runToYield st with
    | inl cs => simpa [closeInvariant] using h
    | inr o => cases o <;> simp [closeInvariant, h]
  | finished => exact h

theorem closeInvariant_close {g : Gen} (h : closeInvariant g) :
    closeInvariant (genClose g) := by
  obtain ⟨status, closes⟩ := g
  cases status with
  | notStarted st =>
    simp only [closeInvariant] at h
    simp [genClose, closeInvariant, h]
  | suspended st =>
    simp only [closeInvariant] at h
    simp [genClose, closeInvariant, h]
  | finished => exact h

theorem closeInvariant_runOps :
    ∀ (ops : List GenOp) (g : Gen), closeInvariant g → closeInvariant (runOps g ops) := by
  intro ops
  induction ops with
  | nil => intro g h; exact h
  | cons op rest ih =>
    intro g h
    cases op with
    | next => exact ih _ (closeInvariant_next h)
    | close => exact ih _ (closeInvariant_close h)

theorem closeInvariant_closes_le {g : Gen} (h : closeInvariant g) : g.closes ≤ 1 := by
  obtain ⟨status, closes⟩ := g
  cases status with
  | notStarted st =>
    have h0 : closes = 0 := h
    show closes ≤ 1
    omega
  | suspended st =>
    have h0 : closes = 0 := h
    show closes ≤ 1
    omega
  | finished => exact h

theorem startedInvariant_next {g : Gen} (h : startedInvariant g) :
    startedInvariant (genNext g).1 := by
  obtain ⟨status, closes⟩ := g
  cases status with
  | notStarted st => exact absurd h (by simp [startedInvariant])
  | suspended st =>
    simp only [startedInvariant] at h
    simp only [genNext]
    cases hr : runToYield st with
    | inl cs => simpa [startedInvariant] using h
    | inr o => cases o <;> simp [startedInvariant, h]
  | finished => exact h

theorem startedInvariant_close {g : Gen} (h : startedInvariant g) :
    startedInvariant (genClose g) := by
  obtain ⟨status, closes⟩ := g
  cases status with
  | notStarted st => exact absurd h (by simp [startedInvariant])
  | suspended st =>
    simp only [startedInvariant] at h
    simp [genClose, startedInvariant, h]
  | finished => exact h

theorem startedInvariant_runOps :
    ∀ (ops : List GenOp) (g : Gen), startedInvariant g → startedInvariant (runOps g ops) := by
  intro ops
  induction ops with
  | nil => intro g h; exact h
  | cons op rest ih =>
    intro g h
    cases op with
    | next => exact ih _ (startedInvariant_next h)
    | close => exact ih _ (startedInvariant_close h)

theorem genNext_started (st : IterSt) :
    startedInvariant (genNext ⟨GenStatus.notStarted st, 0⟩).1 := by
  simp only [genNext]
  cases hr : runToYield st with
  | inl cs => simp [startedInvariant]
  | inr o => cases o <;> simp [startedInvariant]

/-- C8: over any consumer behaviour — exhausting the sequence, seeing a
raised streaming error, or abandoning early and closing the generator
— the transport `response.close()` of the `__iter__` body runs at most
once, and exactly once whenever the consumer started iterating and the
generator ends up finished (the async variant shares this body
verbatim, with `aclose` for `close`). -/
theorem stream_close_exactly_once (st0 : IterSt) (ops : List GenOp) :
    (runOps ⟨GenStatus.notStarted st0, 0⟩ ops).closes ≤ 1
    ∧ (ops.head? = some GenOp.next →
        (runOps ⟨GenStatus.notStarted st0, 0⟩ ops).status = GenStatus.finished →
        (runOps ⟨GenStatus.notStarted st0, 0⟩ ops).closes = 1) := by
  constructor
  · exact closeInvariant_closes_le
      (closeInvariant_runOps ops _ (by simp [closeInvariant]))
  · intro hhead hfin
    cases ops with
    | nil => simp at hhead
    | cons op rest =>
      simp only [List.head?_cons, Option.some.injEq] at hhead
      subst hhead
      have hinv := startedInvariant_runOps rest _ (genNext_started st0)
      simp only [runOps] at hfin ⊢
      revert hinv hfin
      generalize runOps (genNext ⟨GenStatus.notStarted st0, 0⟩).1 rest = gfin
      intro hfin hinv
      obtain ⟨status, closes⟩ := gfin
      cases status with
      | notStarted st => exact (hinv : False).elim
      | suspended st => exact GenStatus.noConfusion hfin
      | finished => exact hinv

/-- C8 witness: a consumer that pulls one chunk from a one-token stream
and then abandons it (close): the transport is closed exactly once. -/
theorem stream_close_exactly_once_witness :
    (runOps ⟨GenStatus.notStarted c8St, 0⟩ [GenOp.next, GenOp.close]).closes ≤ 1
    ∧ (runOps ⟨GenStatus.notStarted c8St, 0⟩ [GenOp.next, GenOp.close]).closes = 1 :=
  ⟨(stream_close_exactly_once c8St [GenOp.next, GenOp.close]).1,
    (stream_close_exactly_once c8St [GenOp.next, GenOp.close]).2 rfl rfl⟩

end HyperClova
